import Mathlib

/-!
Verification of the sefs-cli orchestration layer (src/sefs-cli/app/src/main.rs):
protection-mode selection, the zip/unzip/mount workflows, and the
mount/unmount rendezvous.  Host-visible behaviour is embedded as executable
Lean functions over an abstract host state, producing a trace of the external
calls the program issues, in order.
-/

namespace Sefs

/-- Host paths, abstracted as strings. -/
abbrev Path := String

/-- `sgx_dev::EncryptMode`: the closed set of protection modes.
A key is 16 bytes, embedded as a list of naturals below 256. -/
inductive EncryptMode
  | IntegrityOnly
  | EncryptAutoKey
  | EncryptWithKey (key : List Nat)
deriving DecidableEq, Repr

/-- The error kinds the orchestrator can surface. -/
inductive Err
  | enclaveInit
  | invalidKeyFormat
  | invalidParameters
  | alreadyExists
  | openError
  | createError
  | ctrlcError
  | unionError
  | mountError
  | zipError
  | unzipError
deriving DecidableEq, Repr

/-- Lowercase hexadecimal digit test. -/
def isHexLower (c : Char) : Bool :=
  ('0' ≤ c && c ≤ '9') || ('a' ≤ c && c ≤ 'f')

/-- Numeric value of a lowercase hexadecimal digit. -/
def hexVal (c : Char) : Nat :=
  if '0' ≤ c && c ≤ '9' then c.toNat - '0'.toNat else c.toNat - 'a'.toNat + 10

/-- Byte value of a two-hex-digit group. -/
def byteVal (c1 c2 : Char) : Nat := 16 * hexVal c1 + hexVal c2

/-- Modelled from the spec: the group parser inside
`sgx_dev::EncryptMode::parse_key` (file `sgx_dev.rs` is not under `src/`).
Per §4.1: "exactly 16 bytes, each expressed as a two-hex-digit byte,
segments separated by a single `-` character"; §8 rejects wrong length,
uppercase/invalid characters and missing dashes.  This recogniser consumes a
character list as two-hex-digit groups separated by single dashes. -/
def parseGroups : List Char → Option (List Nat)
  | [c1, c2] =>
      if isHexLower c1 && isHexLower c2 then some [byteVal c1 c2] else none
  | c1 :: c2 :: '-' :: rest =>
      if isHexLower c1 && isHexLower c2 then
        match parseGroups rest with
        | some bs => some (byteVal c1 c2 :: bs)
        | none => none
      else none
  | _ => none

/-- Spec-side: a group that is exactly two lowercase hexadecimal digits. -/
def TwoHex (g : List Char) : Bool :=
  match g with
  | [c1, c2] => isHexLower c1 && isHexLower c2
  | _ => false

/-- Byte value of a two-hex-digit group (0 on malformed groups). -/
def groupVal (g : List Char) : Nat :=
  match g with
  | [c1, c2] => byteVal c1 c2
  | _ => 0

/-- Spec-side: join groups with a single `'-'` between consecutive groups,
no leading or trailing separator. -/
def dashJoin : List (List Char) → List Char
  | [] => []
  | [g] => g
  | g :: gs => g ++ '-' :: dashJoin gs

/-- Spec-side characterisation of a well-formed key string (§4.1, §8):
16 two-hex-digit groups separated by single dashes. -/
def KeyFormat (s : String) : Prop :=
  ∃ gs : List (List Char), gs.length = 16 ∧ (∀ g ∈ gs, TwoHex g = true) ∧
    s.data = dashJoin gs

/-- Modelled from the spec: `sgx_dev::EncryptMode::parse_key`
(file `sgx_dev.rs` is not under `src/`).  Accepts exactly 16 two-hex-digit
groups separated by single dashes; any other form is `InvalidKeyFormat`. -/
def parse_key (s : String) : Except Err (List Nat) :=
  match parseGroups s.data with
  | some bs => if bs.length = 16 then .ok bs else .error .invalidKeyFormat
  | none => .error .invalidKeyFormat

/-- Modelled from the spec: `sgx_dev::EncryptMode::from_parameters`
(file `sgx_dev.rs` is not under `src/`).  Per §4.1: a present key must parse
(yielding `EncryptWithKey`, with `protect_integrity` not changing the mode);
an absent key with `protect_integrity` yields `IntegrityOnly`; an absent key
without `protect_integrity` is not a valid mode request. -/
def from_parameters (protect_integrity : Bool) (key : Option String) :
    Except Err EncryptMode :=
  match key with
  | some s =>
      match parse_key s with
      | .ok bytes => .ok (.EncryptWithKey bytes)
      | .error e => .error e
  | none =>
      if protect_integrity then .ok .IntegrityOnly else .error .invalidParameters

/-- Two-lowercase-hex-digit rendering of a byte, the embedding of the
`format!("\x7b:02x\x7d", byte)` expression in the Root MAC loop (bytes are
below 256, so the width specifier always yields exactly two digits). -/
def byteToHex2 (b : Nat) : String :=
  ⟨[Nat.digitChar (b / 16 % 16), Nat.digitChar (b % 16)]⟩

/-- The Root MAC rendering loop of the zip workflow
(`main.rs`, `root_mac_str`): starting from the empty string, for each
`(i, byte)` of the digest prepend `"-"` when `i ≠ 0` and append the
two-hex-digit rendering of `byte`. -/
def root_mac_str (mac : List Nat) : String :=
  mac.enum.foldl
    (fun s ib => (if ib.1 ≠ 0 then s ++ "-" else s) ++ byteToHex2 ib.2) ""

/-- Spec-side rendering of a digest (§4.5 zip step 6): each byte as two
lowercase hexadecimal digits, a single `"-"` between consecutive bytes, no
leading or trailing separator. -/
def specHexRender : List Nat → String
  | [] => ""
  | [b] => byteToHex2 b
  | b :: bs => byteToHex2 b ++ "-" ++ specHexRender bs

/-- The `"-xx"` cells a digest contributes after its first byte. -/
def dashedTail : List Nat → String
  | [] => ""
  | b :: bs => "-" ++ byteToHex2 b ++ dashedTail bs

/-! ## Host state, environment, and traces -/

/-- The host filesystem, restricted to what the orchestrator observes: which
directories exist, each with an abstract content fingerprint (`0` marks a
freshly created empty directory). -/
structure Host where
  dirs : List (Path × Nat)
deriving DecidableEq, Repr

/-- `std::fs::create_dir`: fails with `AlreadyExists` (touching nothing) when
the directory exists, otherwise records a fresh empty directory. -/
def Host.createDir (h : Host) (p : Path) : Except Err Host :=
  if (h.dirs.lookup p).isSome then .error .alreadyExists
  else .ok ⟨(p, 0) :: h.dirs⟩

/-- Overwrite the content fingerprint of an existing directory. -/
def Host.setContent (h : Host) (p : Path) (c : Nat) : Host :=
  ⟨h.dirs.map fun pc => if pc.1 = p then (p, c) else pc⟩

/-- Identity of a filesystem handed to `fuse::mount`: either a single SEFS
(identified by its backing directory) or a union stack (backing directories
listed in priority order, index 0 highest). -/
inductive Fs
  | sefs (backing : Path)
  | union (layers : List Path)
deriving DecidableEq, Repr

/-- One external call issued by the orchestrator, recorded in program order.
An event records that the call was made, whether or not it succeeded. -/
inductive Event
  | enclaveInitOk (eid : Nat)
  | storageNew (eid : Nat) (path : Path) (mode : EncryptMode)
  | sefsOpen (path : Path)
  | sefsCreate (path : Path)
  | setCtrlcHandler (mountPoint : Path)
  | unionNew (layers : List Path)
  | fuseMount (fs : Fs) (dir : Path)
  | createDirEv (p : Path)
  | zipDirEv (src : Path)
  | unzipDirEv (dst : Path)
  | printlnEv (s : String)
deriving DecidableEq, Repr

/-- The environment decides the outcome of every external call: whether the
enclave initialises, whether `container.is_dir()` holds, whether each
SEFS open/create, the Ctrl-C registration, the union construction, the fuse
mount and the copies succeed, and the opaque values the collaborators
produce (enclave id, root MAC bytes, directory content fingerprints). -/
structure Env where
  enclaveOk : Bool
  eid : Nat
  containerIsDir : Bool
  sefsOpenOk : Path → EncryptMode → Bool
  sefsCreateOk : Path → EncryptMode → Bool
  ctrlcOk : Bool
  unionOk : Bool
  mountOk : Bool
  zipOk : Bool
  unzipOk : Bool
  rootMac : List Nat
  sefsContent : Nat
  zipContent : Nat
  unzipContent : Nat

/-- Outcome of running a command: the `Result` returned by `main`, the final
host state, and the ordered trace of external calls. -/
structure Step where
  result : Except Err Unit
  host : Host
  trace : List Event
deriving Repr

/-! ## The three workflows (`main.rs`, `match opt.cmd`) -/

structure MountArgs where
  image : Path
  container : Path
  dir : Path

structure ZipArgs where
  dir : Path
  image : Path
  protect_integrity : Bool
  key : Option String

structure UnzipArgs where
  image : Path
  dir : Path
  protect_integrity : Bool
  key : Option String

/-- The `Cmd::Mount` branch: build the base device over `image` with
`IntegrityOnly` and open it, register the Ctrl-C unmount handler, then —
iff `container.is_dir()` — build the container device with `EncryptAutoKey`,
open it, stack `[container_fs, image_fs]` as a UnionFS and mount it;
otherwise mount the base SEFS alone. -/
def runMount (env : Env) (a : MountArgs) (h : Host) : Step :=
  let t1 := [Event.storageNew env.eid a.image .IntegrityOnly]
  if env.sefsOpenOk a.image .IntegrityOnly then
    let t2 := t1 ++ [Event.sefsOpen a.image]
    if env.ctrlcOk then
      let t3 := t2 ++ [Event.setCtrlcHandler a.dir]
      if env.containerIsDir then
        let t4 := t3 ++ [Event.storageNew env.eid a.container .EncryptAutoKey]
        if env.sefsOpenOk a.container .EncryptAutoKey then
          let t5 := t4 ++ [Event.sefsOpen a.container]
          if env.unionOk then
            let t6 := t5 ++ [Event.unionNew [a.container, a.image]]
            let tm := t6 ++ [Event.fuseMount (.union [a.container, a.image]) a.dir]
            if env.mountOk then ⟨.ok (), h, tm⟩ else ⟨.error .mountError, h, tm⟩
          else ⟨.error .unionError, h, t5 ++ [Event.unionNew [a.container, a.image]]⟩
        else ⟨.error .openError, h, t4 ++ [Event.sefsOpen a.container]⟩
      else
        let tm := t3 ++ [Event.fuseMount (.sefs a.image) a.dir]
        if env.mountOk then ⟨.ok (), h, tm⟩ else ⟨.error .mountError, h, tm⟩
    else ⟨.error .ctrlcError, h, t2 ++ [Event.setCtrlcHandler a.dir]⟩
  else ⟨.error .openError, h, t1 ++ [Event.sefsOpen a.image]⟩

/-- The `Cmd::Zip` branch: `create_dir(image)` first, then resolve the mode,
build the device, `SEFS::create`, `zip_dir`, report, and if
`protect_integrity` render and print the root MAC. -/
def runZip (env : Env) (a : ZipArgs) (h : Host) : Step :=
  match h.createDir a.image with
  | .error e => ⟨.error e, h, [Event.createDirEv a.image]⟩
  | .ok h1 =>
    let t1 := [Event.createDirEv a.image]
    match from_parameters a.protect_integrity a.key with
    | .error e => ⟨.error e, h1, t1⟩
    | .ok mode =>
      let t2 := t1 ++ [Event.storageNew env.eid a.image mode]
      let h2 := h1.setContent a.image env.sefsContent
      if env.sefsCreateOk a.image mode then
        let t3 := t2 ++ [Event.sefsCreate a.image]
        let h3 := h2.setContent a.image env.zipContent
        if env.zipOk then
          let t4 := t3 ++ [Event.zipDirEv a.dir,
            Event.printlnEv "Encrypt the SEFS image successfully"]
          if a.protect_integrity then
            ⟨.ok (), h3,
              t4 ++ [Event.printlnEv ("Root MAC: " ++ root_mac_str env.rootMac)]⟩
          else ⟨.ok (), h3, t4⟩
        else ⟨.error .zipError, h3, t3 ++ [Event.zipDirEv a.dir]⟩
      else ⟨.error .createError, h2, t2 ++ [Event.sefsCreate a.image]⟩

/-- The `Cmd::Unzip` branch: resolve the mode, build the device over `image`,
`SEFS::open`, then `create_dir(dir)`, then `unzip_dir`, then report. -/
def runUnzip (env : Env) (a : UnzipArgs) (h : Host) : Step :=
  match from_parameters a.protect_integrity a.key with
  | .error e => ⟨.error e, h, []⟩
  | .ok mode =>
    let t1 := [Event.storageNew env.eid a.image mode]
    if env.sefsOpenOk a.image mode then
      let t2 := t1 ++ [Event.sefsOpen a.image]
      match h.createDir a.dir with
      | .error e => ⟨.error e, h, t2 ++ [Event.createDirEv a.dir]⟩
      | .ok h1 =>
        let t3 := t2 ++ [Event.createDirEv a.dir]
        let h2 := h1.setContent a.dir env.unzipContent
        if env.unzipOk then
          ⟨.ok (), h2, t3 ++ [Event.unzipDirEv a.dir,
            Event.printlnEv "Decrypt the SEFS image successfully"]⟩
        else ⟨.error .unzipError, h2, t3 ++ [Event.unzipDirEv a.dir]⟩
    else ⟨.error .openError, h, t1 ++ [Event.sefsOpen a.image]⟩

inductive Cmd
  | mount (a : MountArgs)
  | zip (a : ZipArgs)
  | unzip (a : UnzipArgs)

/-- `fn main()`: initialise the enclave; on failure report and return the
error before dispatching any workflow; on success dispatch the command. -/
def runMain (env : Env) (cmd : Cmd) (h : Host) : Step :=
  if env.enclaveOk then
    let s :=
      match cmd with
      | .mount a => runMount env a h
      | .zip a => runZip env a h
      | .unzip a => runUnzip env a h
    ⟨s.result, s.host, Event.enclaveInitOk env.eid :: s.trace⟩
  else ⟨.error .enclaveInit, h, [Event.printlnEv "[-] Init Enclave Failed!"]⟩

/-! ## The Ctrl-C handler closure -/

/-- Observable effects of one run of the Ctrl-C handler closure. -/
structure HandlerRun where
  unmountCalls : Nat
  printed : Option String
  exitCode : Option Nat
deriving DecidableEq, Repr

/-- The closure passed to `ctrlc::set_handler`: issue exactly one
`sys_mount::unmount(mnt_dir)`; on success do nothing further (the blocked
`fuse::mount` call returns and the program exits normally); on failure print
the reason and `exit(1)`. -/
def ctrlcHandlerBody (mntDir : Path) (unmountResult : Except String Unit) :
    HandlerRun :=
  match unmountResult with
  | .ok _ => { unmountCalls := 1, printed := none, exitCode := none }
  | .error why =>
      { unmountCalls := 1
        printed := some ("failed to unmount " ++ mntDir ++ ": " ++ why)
        exitCode := some 1 }

/-! ## Fixtures for concrete evaluation -/

/-- An environment in which every external call succeeds. -/
def envAllOk : Env :=
  { enclaveOk := true
    eid := 7
    containerIsDir := true
    sefsOpenOk := fun _ _ => true
    sefsCreateOk := fun _ _ => true
    ctrlcOk := true
    unionOk := true
    mountOk := true
    zipOk := true
    unzipOk := true
    rootMac := [0, 17, 255]
    sefsContent := 1
    zipContent := 2
    unzipContent := 3 }

/-- As `envAllOk` but `container` is not a host directory. -/
def envNoContainer : Env := { envAllOk with containerIsDir := false }

/-- As `envAllOk` but enclave initialisation fails. -/
def envNoEnclave : Env := { envAllOk with enclaveOk := false }

/-- As `envAllOk` but every `SEFS::open` fails. -/
def envOpenFails : Env := { envAllOk with sefsOpenOk := fun _ _ => false }

/-- A host with no directories. -/
def hostEmpty : Host := ⟨[]⟩

/-- A host on which directory `p` already exists, with content `5`. -/
def hostWithDir (p : Path) : Host := ⟨[(p, 5)]⟩

def mountArgs0 : MountArgs := ⟨"img", "cont", "mnt"⟩

def zipArgs0 : ZipArgs := ⟨"srcdir", "img", true, none⟩

def zipArgsBadKey : ZipArgs := ⟨"srcdir", "img", false, some "zz"⟩

def unzipArgs0 : UnzipArgs := ⟨"img", "out", true, none⟩

def unzipArgsBadKey : UnzipArgs := ⟨"img", "out", false, some "zz"⟩

/-- The canonical key string of §8. -/
def canonicalKey : String := "00-11-22-33-44-55-66-77-88-99-aa-bb-cc-dd-ee-ff"

/-- The byte sequence the canonical key string denotes. -/
def canonicalBytes : List Nat :=
  [0x00, 0x11, 0x22, 0x33, 0x44, 0x55, 0x66, 0x77,
   0x88, 0x99, 0xaa, 0xbb, 0xcc, 0xdd, 0xee, 0xff]

/-! ## Stated claim conclusions -/

/-- Conclusion of C2 at one environment/arguments/host: iff `container` is an
existing host directory, the overlay device is built with `EncryptAutoKey`,
its filesystem opened and stacked as `[container, image]` (overlay index 0,
base index 1) and the composition mounted; otherwise the base SEFS is
exposed alone — no overlay device, no union. -/
def C2Concl (env : Env) (a : MountArgs) (h : Host) : Prop :=
  (env.containerIsDir = true →
    Event.storageNew env.eid a.container .EncryptAutoKey
        ∈ (runMount env a h).trace ∧
    (env.sefsOpenOk a.container .EncryptAutoKey = true →
      Event.sefsOpen a.container ∈ (runMount env a h).trace ∧
      (env.unionOk = true →
        Event.unionNew [a.container, a.image] ∈ (runMount env a h).trace ∧
        Event.fuseMount (.union [a.container, a.image]) a.dir
          ∈ (runMount env a h).trace))) ∧
  (env.containerIsDir = false →
    Event.fuseMount (.sefs a.image) a.dir ∈ (runMount env a h).trace ∧
    (∀ eid p, Event.storageNew eid p .EncryptAutoKey ∉ (runMount env a h).trace) ∧
    (∀ ls, Event.unionNew ls ∉ (runMount env a h).trace) ∧
    (∀ fs d, Event.fuseMount fs d ∈ (runMount env a h).trace →
      fs = .sefs a.image ∧ d = a.dir))

/-- `e1` occurs strictly before `e2` in the trace `t`. -/
def precedesIn (t : List Event) (e1 e2 : Event) : Prop :=
  ∃ i j : Nat, i < j ∧ t[i]? = some e1 ∧ t[j]? = some e2

/-- Conclusion of C3: the Ctrl-C unmount handler bound to the mount point is
registered strictly before the blocking `fuse::mount` call. -/
def C3Concl (env : Env) (a : MountArgs) (h : Host) (fs : Fs) : Prop :=
  precedesIn (runMount env a h).trace
    (.setCtrlcHandler a.dir) (.fuseMount fs a.dir)

/-! ## Helper lemmas -/

theorem dashJoin_cons (g : List Char) (gs : List (List Char)) (h : gs ≠ []) :
    dashJoin (g :: gs) = g ++ '-' :: dashJoin gs := by
  match gs with
  | [] => exact absurd rfl h
  | g' :: gs' => rfl

theorem parseGroups_sound : ∀ cs bs, parseGroups cs = some bs →
    ∃ gs, gs ≠ [] ∧ (∀ g ∈ gs, TwoHex g = true) ∧ cs = dashJoin gs ∧
      bs = gs.map groupVal := by
  intro cs
  induction cs using parseGroups.induct with
  | case1 c1 c2 hhex =>
    intro bs hbs
    simp only [parseGroups, hhex, if_true, Option.some.injEq] at hbs
    refine ⟨[[c1, c2]], by simp, ?_, by simp [dashJoin], ?_⟩
    · intro g hg; simp at hg; subst hg; simpa [TwoHex] using hhex
    · simp [groupVal, ← hbs]
  | case2 c1 c2 hhex =>
    intro bs hbs
    simp [parseGroups, hhex] at hbs
  | case3 c1 c2 rest hhex bs' hrest ih =>
    intro bs hbs
    simp only [parseGroups, hhex, if_true, hrest, Option.some.injEq] at hbs
    obtain ⟨gs', hne, htwo, hjoin, hval⟩ := ih bs' hrest
    refine ⟨[c1, c2] :: gs', by simp, ?_, ?_, ?_⟩
    · intro g hg
      rcases List.mem_cons.mp hg with h | h
      · subst h; simpa [TwoHex] using hhex
      · exact htwo g h
    · rw [dashJoin_cons _ _ hne, ← hjoin]; simp
    · simp [← hbs, hval, groupVal]
  | case4 c1 c2 rest hhex hrest ih =>
    intro bs hbs
    simp [parseGroups, hhex, hrest] at hbs
  | case5 c1 c2 rest hhex =>
    intro bs hbs
    simp [parseGroups, hhex] at hbs
  | case6 t h1 h2 =>
    intro bs hbs
    rw [parseGroups.eq_def] at hbs
    split at hbs
    · exact (h1 _ _ rfl).elim
    · exact (h2 _ _ _ rfl).elim
    · simp at hbs

theorem parseGroups_complete : ∀ gs : List (List Char), gs ≠ [] →
    (∀ g ∈ gs, TwoHex g = true) →
    parseGroups (dashJoin gs) = some (gs.map groupVal) := by
  intro gs
  induction gs with
  | nil => intro h; exact absurd rfl h
  | cons g gs ih =>
    intro _ htwo
    have hg : TwoHex g = true := htwo g (by simp)
    match g, hg with
    | [c1, c2], hg =>
      have hhex : (isHexLower c1 && isHexLower c2) = true := by
        simpa [TwoHex] using hg
      match gs with
      | [] => simp [dashJoin, parseGroups, hhex, groupVal]
      | g' :: gs' =>
        have hrec := ih (by simp) (fun g hmem => htwo g (List.mem_cons_of_mem _ hmem))
        rw [dashJoin_cons _ _ (by simp)]
        simp only [List.cons_append, List.nil_append]
        simp [parseGroups, hhex, hrec, groupVal]

theorem parse_key_ok_iff (s : String) :
    (∃ bs, parse_key s = .ok bs) ↔ KeyFormat s := by
  constructor
  · rintro ⟨bs, hbs⟩
    unfold parse_key at hbs
    rcases hpg : parseGroups s.data with _ | bs'
    · rw [hpg] at hbs; simp at hbs
    · rw [hpg] at hbs
      by_cases hlen : bs'.length = 16
      · obtain ⟨gs, hne, htwo, hjoin, hval⟩ := parseGroups_sound s.data bs' hpg
        refine ⟨gs, ?_, htwo, hjoin⟩
        rw [hval] at hlen
        simpa using hlen
      · simp [hlen] at hbs
  · rintro ⟨gs, hlen, htwo, hjoin⟩
    have hne : gs ≠ [] := by intro h; subst h; simp at hlen
    have := parseGroups_complete gs hne htwo
    refine ⟨gs.map groupVal, ?_⟩
    unfold parse_key
    rw [hjoin, this]
    simp [hlen]

theorem foldl_enumFrom_succ (l : List Nat) : ∀ (n : Nat) (s : String),
    (List.enumFrom (n + 1) l).foldl
      (fun s ib => (if ib.1 ≠ 0 then s ++ "-" else s) ++ byteToHex2 ib.2) s
      = s ++ dashedTail l := by
  induction l with
  | nil => intro n s; simp [dashedTail, String.append_empty]
  | cons b bs ih =>
    intro n s
    simp only [List.enumFrom, List.foldl_cons]
    rw [if_pos (Nat.succ_ne_zero n)]
    rw [ih (n + 1) (s ++ "-" ++ byteToHex2 b)]
    simp [dashedTail, String.append_assoc]

theorem specHexRender_cons (b : Nat) (bs : List Nat) :
    specHexRender (b :: bs) = byteToHex2 b ++ dashedTail bs := by
  induction bs generalizing b with
  | nil => simp [specHexRender, dashedTail, String.append_empty]
  | cons b' bs' ih =>
    show byteToHex2 b ++ "-" ++ specHexRender (b' :: bs') = _
    rw [ih b']
    simp [dashedTail, String.append_assoc]

theorem isHexLower_digitChar : ∀ n < 16, isHexLower (Nat.digitChar n) = true := by
  decide

theorem rootMac_println_ne (s : String) :
    ("Root MAC: " ++ s) ≠ "Encrypt the SEFS image successfully" := by
  intro heq
  have hd : ("Root MAC: " ++ s).data.head? = some 'R' := by
    rw [String.data_append]; rfl
  rw [heq] at hd
  exact absurd hd (by decide)

theorem root_mac_str_eq_spec (mac : List Nat) :
    root_mac_str mac = specHexRender mac := by
  match mac with
  | [] => rfl
  | b :: bs =>
    unfold root_mac_str
    show (List.enumFrom 0 (b :: bs)).foldl _ "" = _
    simp only [List.enumFrom, List.foldl_cons]
    rw [if_neg (by simp)]
    rw [String.empty_append, specHexRender_cons]
    have := foldl_enumFrom_succ bs 0 (byteToHex2 b)
    simpa using this

/-! ## Claims -/

/-- C1: In the mount workflow the base image's storage device is always
constructed with `IntegrityOnly` — it is the first external call of every
mount invocation — and the only other storage device a mount can construct
is the container's, with `EncryptAutoKey`; no other mode is ever used. -/
theorem claim_C1 (env : Env) (a : MountArgs) (h : Host) :
    (runMount env a h).trace.head? =
      some (.storageNew env.eid a.image .IntegrityOnly) ∧
    ∀ eid p m, Event.storageNew eid p m ∈ (runMount env a h).trace →
      (eid = env.eid ∧ p = a.image ∧ m = .IntegrityOnly) ∨
      (eid = env.eid ∧ p = a.container ∧ m = .EncryptAutoKey) := by
  simp only [runMount]
  split_ifs <;>
    exact ⟨rfl, by intro eid p m hmem; simp at hmem; tauto⟩

/-- C2: In the mount workflow — once the base image opened and the handler
registration succeeded — if and only if the container path is an existing
host directory, a second storage device is built over it with
`EncryptAutoKey`, its filesystem is opened, and the two filesystems are
composed with the container (overlay) at index 0 and the base image at
index 1; otherwise the base filesystem is exposed alone with no overlay. -/
theorem claim_C2 (env : Env) (a : MountArgs) (h : Host)
    (hopen : env.sefsOpenOk a.image .IntegrityOnly = true)
    (hctrl : env.ctrlcOk = true) : C2Concl env a h := by
  unfold C2Concl
  constructor
  · intro hdir
    simp only [runMount, hopen, hctrl, hdir, if_true]
    split_ifs <;> simp_all
  · intro hdir
    simp only [runMount, hopen, hctrl, hdir, if_true, Bool.false_eq_true,
      if_false]
    split_ifs <;> simp_all

/-- Witness for C2: concrete all-succeeding environment, concrete
arguments. -/
theorem claim_C2_witness : C2Concl envAllOk mountArgs0 hostEmpty :=
  claim_C2 envAllOk mountArgs0 hostEmpty rfl rfl

/-- C3: On every execution path of the mount command on which the blocking
mount-and-serve call is issued (composed-overlay or base-only), the
asynchronous unmount trigger was registered strictly earlier in the trace,
and it is bound to the mount point. -/
theorem claim_C3 (env : Env) (a : MountArgs) (h : Host) (fs : Fs) (d : Path)
    (hmem : Event.fuseMount fs d ∈ (runMount env a h).trace) :
    d = a.dir ∧ C3Concl env a h fs := by
  unfold C3Concl precedesIn
  simp only [runMount] at hmem ⊢
  split_ifs at hmem ⊢ <;> simp at hmem <;>
    obtain ⟨hfs, hd⟩ := hmem <;> subst hfs <;> subst hd <;>
    first
    | exact ⟨rfl, 2, 6, by omega, rfl, rfl⟩
    | exact ⟨rfl, 2, 3, by omega, rfl, rfl⟩

/-- Witness for C3: the all-succeeding environment with an existing
container directory. -/
theorem claim_C3_witness :
    "mnt" = mountArgs0.dir ∧
      C3Concl envAllOk mountArgs0 hostEmpty (.union ["cont", "img"]) :=
  claim_C3 envAllOk mountArgs0 hostEmpty (.union ["cont", "img"]) "mnt"
    (by decide)

/-- C4: the unmount trigger issues exactly one unmount request and never
retries; if the request fails it reports the failure on the diagnostic
stream and terminates the process with exit status 1 (non-zero); if it
succeeds the trigger performs no further action — and a mount invocation
only returns success through the blocking serve call succeeding. -/
theorem claim_C4 :
    (∀ d why, ctrlcHandlerBody d (.error why) =
      { unmountCalls := 1
        printed := some ("failed to unmount " ++ d ++ ": " ++ why)
        exitCode := some 1 }) ∧
    (∀ d why c, (ctrlcHandlerBody d (.error why)).exitCode = some c → c ≠ 0) ∧
    (∀ d r, (ctrlcHandlerBody d r).unmountCalls = 1) ∧
    (∀ d, ctrlcHandlerBody d (.ok ()) =
      { unmountCalls := 1, printed := none, exitCode := none }) ∧
    (∀ env a h, (runMount env a h).result = .ok () → env.mountOk = true) := by
  refine ⟨fun d why => rfl, fun d why c hc => ?_, fun d r => ?_,
    fun d => rfl, fun env a h hok => ?_⟩
  · simp [ctrlcHandlerBody] at hc
    omega
  · cases r <;> rfl
  · simp only [runMount] at hok
    split_ifs at hok <;> simp_all

/-- Witness for C4: the failing handler's exit status is non-zero, and the
all-succeeding mount returns through the serve call. -/
theorem claim_C4_witness : (1 : Nat) ≠ 0 ∧ envAllOk.mountOk = true :=
  ⟨claim_C4.2.1 "mnt" "busy" 1 rfl,
   claim_C4.2.2.2.2 envAllOk mountArgs0 hostEmpty rfl⟩

/-- C5: a caller-supplied key string parses successfully iff it is 16
two-hex-digit groups separated by single dashes; every other form is
rejected with the key-format error, and then no storage device is
constructed in either zip or unzip; the canonical form
`"00-11-22-33-44-55-66-77-88-99-aa-bb-cc-dd-ee-ff"` parses to the bytes
`[0x00, 0x11, ..., 0xff]`, yielding the `EncryptWithKey` mode. -/
theorem claim_C5 :
    (∀ s, (∃ bs, parse_key s = .ok bs) ↔ KeyFormat s) ∧
    (∀ s, (∃ bs, parse_key s = .ok bs) ∨
      parse_key s = .error .invalidKeyFormat) ∧
    (∀ s pi, parse_key s = .error .invalidKeyFormat →
      from_parameters pi (some s) = .error .invalidKeyFormat) ∧
    (∀ env a h, (∃ e, from_parameters a.protect_integrity a.key = .error e) →
      ∀ eid p m, Event.storageNew eid p m ∉ (runZip env a h).trace) ∧
    (∀ env a h, (∃ e, from_parameters a.protect_integrity a.key = .error e) →
      ∀ eid p m, Event.storageNew eid p m ∉ (runUnzip env a h).trace) ∧
    parse_key canonicalKey = .ok canonicalBytes ∧
    (∀ pi, from_parameters pi (some canonicalKey) =
      .ok (.EncryptWithKey canonicalBytes)) := by
  refine ⟨parse_key_ok_iff, ?_, ?_, ?_, ?_, ?_, ?_⟩
  · intro s
    unfold parse_key
    rcases parseGroups s.data with _ | bs
    · exact .inr rfl
    · by_cases hlen : bs.length = 16
      · exact .inl ⟨bs, by simp [hlen]⟩
      · exact .inr (by simp [hlen])
  · intro s pi hpk
    simp [from_parameters, hpk]
  · rintro env a h ⟨e, he⟩ eid p m hmem
    simp only [runZip] at hmem
    rcases hc : h.createDir a.image with e' | h1 <;> rw [hc] at hmem <;>
      simp only [he] at hmem <;> simp at hmem
  · rintro env a h ⟨e, he⟩ eid p m hmem
    simp only [runUnzip, he] at hmem
    simp at hmem
  · rfl
  · intro pi
    simp [from_parameters]
    rfl

/-- Witness for C5: `"zz"` is rejected with the key-format error and builds
no storage device in zip or unzip. -/
theorem claim_C5_witness :
    from_parameters false (some "zz") = .error .invalidKeyFormat ∧
    Event.storageNew 7 "img" .IntegrityOnly
        ∉ (runZip envAllOk zipArgsBadKey hostEmpty).trace ∧
    Event.storageNew 7 "img" .IntegrityOnly
        ∉ (runUnzip envAllOk unzipArgsBadKey hostEmpty).trace :=
  ⟨claim_C5.2.2.1 "zz" false rfl,
   claim_C5.2.2.2.1 envAllOk zipArgsBadKey hostEmpty ⟨.invalidKeyFormat, rfl⟩
     7 "img" .IntegrityOnly,
   claim_C5.2.2.2.2.1 envAllOk unzipArgsBadKey hostEmpty
     ⟨.invalidKeyFormat, rfl⟩ 7 "img" .IntegrityOnly⟩

/-- C6: zip into an already-existing image directory fails with
`AlreadyExists` and leaves the host — in particular that directory's
contents — unmodified; unzip into an already-existing target directory
(reached with a resolvable mode and an openable image) likewise fails with
`AlreadyExists` and leaves the host unmodified. -/
theorem claim_C6 :
    (∀ env a h c, h.dirs.lookup a.image = some c →
      (runZip env a h).result = .error .alreadyExists ∧
      (runZip env a h).host = h) ∧
    (∀ env a h c mode, h.dirs.lookup a.dir = some c →
      from_parameters a.protect_integrity a.key = .ok mode →
      env.sefsOpenOk a.image mode = true →
      (runUnzip env a h).result = .error .alreadyExists ∧
      (runUnzip env a h).host = h) := by
  constructor
  · intro env a h c hlk
    have hc : h.createDir a.image = .error .alreadyExists := by
      simp [Host.createDir, hlk]
    simp [runZip, hc]
  · intro env a h c mode hlk hfp hopen
    have hc : h.createDir a.dir = .error .alreadyExists := by
      simp [Host.createDir, hlk]
    simp [runUnzip, hfp, hopen, hc]

/-- Witness for C6: concrete pre-existing `"img"` and `"out"`
directories. -/
theorem claim_C6_witness :
    ((runZip envAllOk zipArgs0 (hostWithDir "img")).result =
        .error .alreadyExists ∧
      (runZip envAllOk zipArgs0 (hostWithDir "img")).host =
        hostWithDir "img") ∧
    ((runUnzip envAllOk unzipArgs0 (hostWithDir "out")).result =
        .error .alreadyExists ∧
      (runUnzip envAllOk unzipArgs0 (hostWithDir "out")).host =
        hostWithDir "out") :=
  ⟨claim_C6.1 envAllOk zipArgs0 (hostWithDir "img") 5 rfl,
   claim_C6.2 envAllOk unzipArgs0 (hostWithDir "out") 5 .IntegrityOnly
     rfl rfl rfl⟩

/-- C7: if enclave initialisation fails, the process reports the failure and
returns an error before dispatching any workflow: the host is untouched and
the trace holds only the failure report — in particular no storage device is
ever constructed. -/
theorem claim_C7 (env : Env) (cmd : Cmd) (h : Host)
    (henc : env.enclaveOk = false) :
    (runMain env cmd h).result = .error .enclaveInit ∧
    (runMain env cmd h).host = h ∧
    (runMain env cmd h).trace = [.printlnEv "[-] Init Enclave Failed!"] ∧
    ∀ eid p m, Event.storageNew eid p m ∉ (runMain env cmd h).trace := by
  simp [runMain, henc]

/-- Witness for C7: a failing enclave with the zip command. -/
theorem claim_C7_witness :
    (runMain envNoEnclave (.zip zipArgs0) hostEmpty).result =
        .error .enclaveInit ∧
    (runMain envNoEnclave (.zip zipArgs0) hostEmpty).host = hostEmpty ∧
    (runMain envNoEnclave (.zip zipArgs0) hostEmpty).trace =
        [.printlnEv "[-] Init Enclave Failed!"] ∧
    ∀ eid p m, Event.storageNew eid p m
        ∉ (runMain envNoEnclave (.zip zipArgs0) hostEmpty).trace :=
  claim_C7 envNoEnclave (.zip zipArgs0) hostEmpty rfl

/-- C8: the unzip workflow resolves the mode, builds the device and opens
the filesystem, then creates the target directory, then copies out — in that
order; a mode-resolution failure or an open failure (wrong key, tampered
image) aborts before `create_dir`, leaving the target directory
uncreated and the host unchanged. -/
theorem claim_C8 :
    (∀ env a h mode, from_parameters a.protect_integrity a.key = .ok mode →
      env.sefsOpenOk a.image mode = true → h.dirs.lookup a.dir = none →
      env.unzipOk = true →
      (runUnzip env a h).trace =
        [.storageNew env.eid a.image mode, .sefsOpen a.image,
         .createDirEv a.dir, .unzipDirEv a.dir,
         .printlnEv "Decrypt the SEFS image successfully"]) ∧
    (∀ env a h e, from_parameters a.protect_integrity a.key = .error e →
      (runUnzip env a h).trace = [] ∧ (runUnzip env a h).host = h) ∧
    (∀ env a h mode, from_parameters a.protect_integrity a.key = .ok mode →
      env.sefsOpenOk a.image mode = false →
      (runUnzip env a h).trace =
        [.storageNew env.eid a.image mode, .sefsOpen a.image] ∧
      (runUnzip env a h).host = h ∧
      (runUnzip env a h).result = .error .openError) := by
  refine ⟨?_, ?_, ?_⟩
  · intro env a h mode hfp hopen hlk hun
    have hc : h.createDir a.dir = .ok ⟨(a.dir, 0) :: h.dirs⟩ := by
      simp [Host.createDir, hlk]
    simp [runUnzip, hfp, hopen, hc, hun]
  · intro env a h e hfp
    simp [runUnzip, hfp]
  · intro env a h mode hfp hopen
    simp [runUnzip, hfp, hopen]

/-- Witness for C8: a successful unzip's trace in order; a malformed key and
a failing open leave the target uncreated. -/
theorem claim_C8_witness :
    (runUnzip envAllOk unzipArgs0 hostEmpty).trace =
      [.storageNew 7 "img" .IntegrityOnly, .sefsOpen "img",
       .createDirEv "out", .unzipDirEv "out",
       .printlnEv "Decrypt the SEFS image successfully"] ∧
    (runUnzip envAllOk unzipArgsBadKey hostEmpty).trace = [] ∧
    (runUnzip envOpenFails unzipArgs0 hostEmpty).host = hostEmpty :=
  ⟨claim_C8.1 envAllOk unzipArgs0 hostEmpty .IntegrityOnly rfl rfl rfl rfl,
   (claim_C8.2.1 envAllOk unzipArgsBadKey hostEmpty .invalidKeyFormat rfl).1,
   (claim_C8.2.2 envOpenFails unzipArgs0 hostEmpty .IntegrityOnly
     rfl rfl).2.1⟩

/-- C9: in a zip run that reaches the reporting stage, the root digest is
rendered and printed iff `protect_integrity` was requested, and the
rendering equals the spec-side form — each byte as two lowercase hexadecimal
digits with a single `'-'` between consecutive bytes, no leading or trailing
separator. -/
theorem claim_C9 :
    (∀ env a h mode, h.dirs.lookup a.image = none →
      from_parameters a.protect_integrity a.key = .ok mode →
      env.sefsCreateOk a.image mode = true → env.zipOk = true →
      (a.protect_integrity = true ↔
        Event.printlnEv ("Root MAC: " ++ root_mac_str env.rootMac)
          ∈ (runZip env a h).trace)) ∧
    (∀ mac, root_mac_str mac = specHexRender mac) ∧
    (∀ b, b < 256 → (byteToHex2 b).data.length = 2 ∧
      ∀ c ∈ (byteToHex2 b).data, isHexLower c = true) := by
  refine ⟨?_, root_mac_str_eq_spec, ?_⟩
  · intro env a h mode hlk hfp hcr hz
    have hc : h.createDir a.image = .ok ⟨(a.image, 0) :: h.dirs⟩ := by
      simp [Host.createDir, hlk]
    rcases hpi : a.protect_integrity with _ | _ <;> rw [hpi] at hfp <;>
      simp [runZip, hc, hfp, hcr, hz, hpi, rootMac_println_ne]
  · intro b _
    refine ⟨rfl, ?_⟩
    intro c hmem
    have h1 := isHexLower_digitChar (b / 16 % 16) (Nat.mod_lt _ (by omega))
    have h2 := isHexLower_digitChar (b % 16) (Nat.mod_lt _ (by omega))
    simp only [byteToHex2, List.mem_cons, List.not_mem_nil, or_false] at hmem
    rcases hmem with h | h <;> subst h <;> assumption

/-- Witness for C9: the all-succeeding zip with `protect_integrity`
requested, and the byte `0xab`. -/
theorem claim_C9_witness :
    (zipArgs0.protect_integrity = true ↔
      Event.printlnEv ("Root MAC: " ++ root_mac_str envAllOk.rootMac)
        ∈ (runZip envAllOk zipArgs0 hostEmpty).trace) ∧
    ((byteToHex2 0xab).data.length = 2 ∧
      ∀ c ∈ (byteToHex2 0xab).data, isHexLower c = true) :=
  ⟨claim_C9.1 envAllOk zipArgs0 hostEmpty .IntegrityOnly rfl rfl rfl rfl,
   claim_C9.2.2 0xab (by decide)⟩

/-- C10: zip creates the target image directory before validating the key
string, so a malformed key fails with the key-format error but leaves behind
a newly created empty image directory — zip is not state-unchanged on
`InvalidKeyFormat`. -/
theorem claim_C10 (env : Env) (a : ZipArgs) (h : Host) (s : String)
    (hlk : h.dirs.lookup a.image = none)
    (hkey : a.key = some s)
    (hbad : parse_key s = .error .invalidKeyFormat) :
    (runZip env a h).result = .error .invalidKeyFormat ∧
    (runZip env a h).host = ⟨(a.image, 0) :: h.dirs⟩ ∧
    (runZip env a h).host ≠ h ∧
    Event.createDirEv a.image ∈ (runZip env a h).trace := by
  have hc : h.createDir a.image = .ok ⟨(a.image, 0) :: h.dirs⟩ := by
    simp [Host.createDir, hlk]
  have hfp : from_parameters a.protect_integrity a.key =
      .error .invalidKeyFormat := by
    rw [hkey]
    simp [from_parameters, hbad]
  refine ⟨by simp [runZip, hc, hfp], by simp [runZip, hc, hfp], ?_,
    by simp [runZip, hc, hfp]⟩
  simp only [runZip, hc, hfp]
  intro heq
  have h2 := congrArg (fun hh : Host => hh.dirs.lookup a.image) heq
  simp [List.lookup, hlk] at h2

/-- Witness for C10: a malformed key `"zz"` with a fresh image directory. -/
theorem claim_C10_witness :
    (runZip envAllOk zipArgsBadKey hostEmpty).result =
        .error .invalidKeyFormat ∧
    (runZip envAllOk zipArgsBadKey hostEmpty).host = ⟨[("img", 0)]⟩ ∧
    (runZip envAllOk zipArgsBadKey hostEmpty).host ≠ hostEmpty ∧
    Event.createDirEv "img" ∈ (runZip envAllOk zipArgsBadKey hostEmpty).trace :=
  claim_C10 envAllOk zipArgsBadKey hostEmpty "zz" rfl rfl rfl

end Sefs
